import Mathlib

/-!
Verification of the LazySusan chat-room bot (dispatcher, plugin
registration, session membership state, and the botdj plugin) against its
natural-language specification.  Python source functions are shallowly
embedded as executable Lean definitions; stateful handlers become explicit
state-passing functions, prints and remote API calls become lists of
emitted actions, and Python exceptions (set.remove on a missing member)
become explicit failure flags.
-/

namespace LazySusan

/-! ## Command dispatch (`LazySusan.process_message`) -/

/-- Python `str.split()` with no argument: split on whitespace runs,
dropping empty pieces. -/
def split_ws (text : String) : List String :=
  ((text.data.splitOnP Char.isWhitespace).filter (fun w => w ≠ [])).map
    (fun w => String.mk w)

/-- Embeds `LazySusan.process_message`: `data['text']` is split on whitespace;
the first token is the command, the rest re-joined with single spaces is
the message; an unknown command or empty text dispatches nothing.  The
result records the invoked handler together with its two arguments
`(message, data)`; `none` means no handler was invoked. -/
def process_message {H D : Type} (commands : List (String × H))
    (text : String) (data : D) : Option (H × String × D) :=
  match split_ws text with
  | [] => none
  | command :: rest =>
    let message := match rest with
      | [] => ""
      | _ => " ".intercalate rest
    match (commands.lookup command) with
    | none => none
    | some handler => some (handler, message, data)

/-! ## Plugin command registration (`_load_command_plugin` / `load_plugin`) -/

/-- Provenance of a command-table binding: reserved bot commands are bound
methods of the bot object; plugin commands are bound methods of a
`CommandPlugin` instance carrying the plugin's name
(`other.im_self.NAME`). -/
inductive Owner where
  | bot : Owner
  | plugin (name : String) : Owner
deriving DecidableEq, Repr

/-- The messages a load attempt prints. -/
inductive LoadMsg where
  | conflict (pluginName otherName command : String) : LoadMsg
  | reserved (pluginName command : String) : LoadMsg
  | notLoading (pluginName : String) : LoadMsg
  | loaded (pluginName : String) : LoadMsg
deriving DecidableEq, Repr

/-- The message `_load_command_plugin` prints for a colliding command,
chosen by the `isinstance(other.im_self, CommandPlugin)` test: a conflict
message when the existing binding belongs to another plugin, a
reserved-command message when it is a bot method. -/
def collisionMsg (pluginName : String) (other : Owner) (command : String) :
    LoadMsg :=
  match other with
  | Owner.plugin otherName => LoadMsg.conflict pluginName otherName command
  | Owner.bot => LoadMsg.reserved pluginName command

/-- Embeds `LazySusan._load_command_plugin`: walk the plugin's `COMMANDS` in
order accumulating `to_add`; on the first command already bound, print a
message distinguishing a plugin-command conflict from a reserved bot
command, print `Not loading plugin`, and return `False` without touching
the table; otherwise merge `to_add` into the table and return `True`.
Result: (new table, success, printed messages). -/
def load_command_plugin_aux (commands : List (String × Owner))
    (pluginName : String) :
    List (String × Owner) → List (String × Owner) →
    List (String × Owner) × Bool × List LoadMsg
  | [], to_add => (commands ++ to_add, true, [])
  | (command, handler) :: rest, to_add =>
    match commands.lookup command with
    | some other =>
      (commands, false,
        [collisionMsg pluginName other command, LoadMsg.notLoading pluginName])
    | none => load_command_plugin_aux commands pluginName rest
        (to_add ++ [(command, handler)])

/-- The first command of the plugin's command table (in declaration
order) that is already bound in the bot's table, with its existing
binding. -/
def firstCollision (commands : List (String × Owner)) :
    List (String × Owner) → Option (String × Owner)
  | [] => none
  | (command, _) :: rest =>
    match commands.lookup command with
    | some other => some (command, other)
    | none => firstCollision commands rest

/-- Entry point of `_load_command_plugin` over the plugin's command
table. -/
def load_command_plugin (commands : List (String × Owner))
    (pluginName : String) (pluginCommands : List (String × Owner)) :
    List (String × Owner) × Bool × List LoadMsg :=
  load_command_plugin_aux commands pluginName pluginCommands []

/-- The registration tail of `LazySusan.load_plugin` for a resolved
`CommandPlugin` instance: attempt command registration; on failure return
with `loaded_plugins` untouched; on success record the plugin and print
`Loaded plugin`. Result: (command table, loaded plugins, messages). -/
def load_plugin (commands : List (String × Owner))
    (loaded_plugins : List String) (pluginName : String)
    (pluginCommands : List (String × Owner)) :
    List (String × Owner) × List String × List LoadMsg :=
  let (commands2, success, msgs) :=
    load_command_plugin commands pluginName pluginCommands
  if success then
    (commands2, loaded_plugins ++ [pluginName], msgs ++ [LoadMsg.loaded pluginName])
  else
    (commands, loaded_plugins, msgs)

/-! ## Session membership state and event handlers -/

/-- The membership-state slice of the `LazySusan` session object. -/
structure Session where
  dj_ids : Finset String
  listener_ids : Finset String
  moderator_ids : Finset String
  max_djs : Option Int
deriving DecidableEq

/-- Python `set.add` folded over `data['user']` (`handle_add_dj`,
`handle_user_join`). -/
def addAll (users : List String) (s : Finset String) : Finset String :=
  users.foldl (fun acc u => insert u acc) s

/-- Python `set.remove` folded over `data['user']`: removing a missing
member raises `KeyError` mid-loop, leaving earlier removals applied; the
`Bool` is `false` when the loop raised (`handle_remove_dj`,
`handle_user_leave`). -/
def removeAll : List String → Finset String → Finset String × Bool
  | [], s => (s, true)
  | u :: rest, s =>
    if u ∈ s then removeAll rest (s.erase u)
    else (s, false)

/-- The inbound membership events, with the fields each handler reads. -/
inductive Event where
  | add_dj (users : List String) : Event
  | rem_dj (users : List String) : Event
  | registered (users : List String) : Event
  | deregistered (users : List String) : Event
  | new_moderator (userid : String) : Event
  | rem_moderator (userid : String) : Event
  | roomChanged (djs : List String) (userids : List String)
      (maxDjs : Int) (moderatorIds : List String) : Event
deriving DecidableEq, Repr

/-- Apply one event's handler to the session.  The `Bool` is `false` when
the handler body raised (a removal of a missing member); the session
returned is the state after the partial mutation, as `display_exceptions`
catches the exception without rolling anything back. -/
def applyEvent : Event → Session → Session × Bool
  | Event.add_dj users, s => ({ s with dj_ids := addAll users s.dj_ids }, true)
  | Event.rem_dj users, s =>
    let (dj, ok) := removeAll users s.dj_ids
    ({ s with dj_ids := dj }, ok)
  | Event.registered users, s =>
    ({ s with listener_ids := addAll users s.listener_ids }, true)
  | Event.deregistered users, s =>
    let (l, ok) := removeAll users s.listener_ids
    ({ s with listener_ids := l }, ok)
  | Event.new_moderator userid, s =>
    ({ s with moderator_ids := insert userid s.moderator_ids }, true)
  | Event.rem_moderator userid, s =>
    if userid ∈ s.moderator_ids then
      ({ s with moderator_ids := s.moderator_ids.erase userid }, true)
    else (s, false)
  | Event.roomChanged djs userids maxDjs moderatorIds, _ =>
    ({ dj_ids := djs.toFinset
      , listener_ids := userids.toFinset
      , max_djs := some maxDjs
      , moderator_ids := moderatorIds.toFinset }, true)

/-- The session `handle_room_change` builds from a snapshot, independent
of prior state. -/
def snapshotSession (djs userids : List String) (maxDjs : Int)
    (moderatorIds : List String) : Session :=
  { dj_ids := djs.toFinset
  , listener_ids := userids.toFinset
  , max_djs := some maxDjs
  , moderator_ids := moderatorIds.toFinset }

/-- Fold a list of events over the session, ignoring the raised flags
(the dispatcher's `display_exceptions` boundary swallows them). -/
def applyEvents (events : List Event) (s : Session) : Session :=
  events.foldl (fun acc e => (applyEvent e acc).1) s

end LazySusan

namespace Botdj

/-- Python substring containment `selection in x`. -/
def strContains (hay needle : String) : Bool :=
  decide (needle.data <:+: hay.data)

/-- Python `x.startswith(selection)`. -/
def strStartsWith (x selection : String) : Bool :=
  decide (selection.data <+: x.data)

/-- Embeds `botdj.best_match`: an exact option wins outright; else the options
with the selection as a prefix, a single one returned alone; with no
prefix matches, the options containing the selection as a substring.
`Sum.inl` is a single chosen option, `Sum.inr` a disambiguation list. -/
def best_match (selection : String) (options : List String) :
    Sum String (List String) :=
  if selection ∈ options then Sum.inl selection
  else
    let possibles := options.filter (fun x => strStartsWith x selection)
    if possibles = [] then
      Sum.inr (options.filter (fun x => strContains x selection))
    else if possibles.length = 1 then Sum.inl possibles.head!
    else Sum.inr possibles

/-- Embeds `Dj.is_dj`: the bot's id is in the session's DJ set. -/
def is_dj (botId : String) (dj_ids : Finset String) : Prop :=
  botId ∈ dj_ids

instance (botId : String) (dj_ids : Finset String) :
    Decidable (is_dj botId dj_ids) := by
  unfold is_dj; infer_instance

/-- Embeds `Dj.should_step_down`: the bot is DJ-ing and either at most one
listener remains or the DJ table is full. -/
def should_step_down (botId : String) (dj_ids listener_ids : Finset String)
    (max_djs : Int) : Prop :=
  is_dj botId dj_ids ∧
    ((listener_ids.card : Int) ≤ 1 ∨ (dj_ids.card : Int) ≥ max_djs)

instance (botId : String) (dj_ids listener_ids : Finset String)
    (max_djs : Int) :
    Decidable (should_step_down botId dj_ids listener_ids max_djs) := by
  unfold should_step_down; infer_instance

/-- Embeds `Dj.should_step_up`: the bot is not DJ-ing, more than one listener is
present, and the DJ count is below `min(2, max_djs - 1)`. -/
def should_step_up (botId : String) (dj_ids listener_ids : Finset String)
    (max_djs : Int) : Prop :=
  ¬ is_dj botId dj_ids ∧ (listener_ids.card : Int) > 1 ∧
    (dj_ids.card : Int) < min 2 (max_djs - 1)

instance (botId : String) (dj_ids listener_ids : Finset String)
    (max_djs : Int) :
    Decidable (should_step_up botId dj_ids listener_ids max_djs) := by
  unfold should_step_up; infer_instance

/-- The mutable state of the `Dj` plugin instance. -/
structure DjState where
  end_song_step_down : Bool
  should_auto_skip : Bool
deriving DecidableEq, Repr

/-- The remote DJ-table actions `dj_update` may issue. -/
inductive DjAction where
  | addDj : DjAction
  | remDj : DjAction
deriving DecidableEq, Repr

/-- Embeds `Dj.dj_update`: if the bot's own id appears in the event's user list
the update is ignored (returning early), except that a `rem_dj` event
clears `should_auto_skip`; otherwise step down (deferred to end of song
while playing) or step up according to the thresholds. -/
def dj_update (botId : String) (command : String) (users : List String)
    (dj_ids listener_ids : Finset String) (max_djs : Int)
    (isPlaying : Bool) (st : DjState) : DjState × List DjAction :=
  if botId ∈ users then
    if command = "rem_dj" then ({ st with should_auto_skip := false }, [])
    else (st, [])
  else if should_step_down botId dj_ids listener_ids max_djs then
    if isPlaying then ({ st with end_song_step_down := true }, [])
    else (st, [DjAction.remDj])
  else if should_step_up botId dj_ids listener_ids max_djs then
    (st, [DjAction.addDj])
  else (st, [])

/-! ## Playlist plugin: add-current-song (`Playlist.add`) -/

/-- The replies and remote calls `Playlist.add` emits. -/
inductive AddAction where
  | reply (msg : String) : AddAction
  | playlistAdd (playlistName songId : String) (index : Nat) : AddAction
  | bop : AddAction
deriving DecidableEq, Repr

/-- The slice of `Playlist` state `add` touches: the current playlist's
name and its local mirror `self.playlists[self.playlist]`. -/
structure AddState where
  playlist : String
  mirror : Finset String
deriving DecidableEq

/-- Embeds `Playlist.add` (`/pladd`): reply and stop when nothing is playing;
reply (and still bop) when the current song is already mirrored;
otherwise reply, issue one `playlistAdd` on the `default` playlist at
index `len(playlist)`, add the song to the mirror only when the current
playlist is `default`, and bop. -/
def Playlist.add (currentSongId : Option String) (st : AddState) :
    AddState × List AddAction :=
  match currentSongId with
  | none => (st, [AddAction.reply "There is no song playing."])
  | some songId =>
    if songId ∈ st.mirror then
      (st, [AddAction.reply "We already have that song.", AddAction.bop])
    else
      ({ st with mirror := if st.playlist = "default"
            then insert songId st.mirror else st.mirror },
        [AddAction.reply "Cool tunes, daddio.",
         AddAction.playlistAdd "default" songId st.mirror.card,
         AddAction.bop])

/-! ## Playlist plugin: the clear chain (`Playlist.clear_callback`) -/

/-- A `playlistRemove` response: success flag and the removed song's
`data['song_dict'][0]['fileid']`. -/
structure ClearResp where
  success : Bool
  fileid : String
deriving DecidableEq, Repr

/-- The replies the clear chain emits. -/
inductive PlMsg where
  | failure (remaining : Nat) : PlMsg
  | progress (removed total : Nat) : PlMsg
  | cleared (playlistName : String) : PlMsg
deriving DecidableEq, Repr

/-- One invocation of the `_closure` inside `Playlist.clear_callback`:
result is (mirror after, replies, whether a next `playlistRemove` request
was issued, whether the body raised `KeyError`).  A failure response
reports the remaining count and stops; a successful response removes the
reported fileid from the mirror (raising when absent), reports progress
when the cumulative removed count hits a multiple of 30, and either
issues the next remove request or reports completion. -/
def clear_step (playlistName : String) (originalCount : Nat)
    (resp : ClearResp) (playlist : Finset String) :
    Finset String × List PlMsg × Bool × Bool :=
  if ¬ resp.success then
    (playlist, [PlMsg.failure playlist.card], false, false)
  else if resp.fileid ∈ playlist then
    let playlist2 := playlist.erase resp.fileid
    let removed := originalCount - playlist2.card
    let progressMsgs := if removed % 30 = 0
      then [PlMsg.progress removed originalCount] else []
    if playlist2 = ∅ then
      (playlist2, progressMsgs ++ [PlMsg.cleared playlistName], false, false)
    else
      (playlist2, progressMsgs, true, false)
  else (playlist, [], false, true)

/-- Run the clear chain on a list of successive responses: each response
is consumed only while a request is in flight; the chain stops as soon as
a step issues no further request. -/
def clear_run (playlistName : String) (originalCount : Nat) :
    List ClearResp → Finset String → Finset String × List PlMsg
  | [], pl => (pl, [])
  | resp :: rest, pl =>
    let (pl2, msgs, next, _) := clear_step playlistName originalCount resp pl
    if next then
      let (plF, msgsF) := clear_run playlistName originalCount rest pl2
      (plF, msgs ++ msgsF)
    else (pl2, msgs)

/-! ## Playlist plugin: update from room history (`Playlist.update_playlist`) -/

/-- Python tuple comparison on `(score, _id)` pairs, as used by
`to_add.sort()`. -/
def pairLe (a b : Int × String) : Bool :=
  decide (a.1 < b.1) || (decide (a.1 = b.1) && decide (a.2 ≤ b.2))

/-- Insert into a `pairLe`-sorted list. -/
def insertPair (x : Int × String) : List (Int × String) → List (Int × String)
  | [] => [x]
  | y :: ys => if pairLe x y then x :: y :: ys else y :: insertPair x ys

/-- Python `list.sort()` on `(score, _id)` tuples: ascending
lexicographic order. -/
def sortPairs : List (Int × String) → List (Int × String)
  | [] => []
  | x :: xs => insertPair x (sortPairs xs)

/-- The `to_add` list built by `update_playlist.room_info_callback
.add_songs`: the songlog entries whose id is not already mirrored, as
`(score, _id)` pairs, sorted ascending. -/
def update_to_add (songlog : List (Int × String)) (mirror : Finset String) :
    List (Int × String) :=
  sortPairs (songlog.filter (fun p => ¬ p.2 ∈ mirror))

/-- The conceptual remote playlist order produced by `add_song_callback`:
each `to_add` entry in turn is sent with `playlistAdd(self.playlist,
song_id, 0, ...)`, i.e. inserted at the head, in front of everything
added before it. -/
def update_final_order (songlog : List (Int × String))
    (mirror : Finset String) : List String :=
  (update_to_add songlog mirror).foldl (fun acc p => p.2 :: acc) []

end Botdj

/-! ## Theorems -/

section Theorems

open LazySusan Botdj

/-- C1: For every incoming chat or PM text, dispatch splits the text on
whitespace; the first token is the command key and the remaining tokens
re-joined with single spaces form the argument string; if the text is
empty/whitespace or the key is absent from the command table, no handler
is invoked (silently ignored); otherwise the bound handler is invoked
with exactly (argument string, raw event data). -/
theorem C1_dispatch {H D : Type} (commands : List (String × H))
    (text : String) (data : D) :
    (split_ws text = [] → process_message commands text data = none) ∧
    (∀ command rest, split_ws text = command :: rest →
      (commands.lookup command = none →
        process_message commands text data = none) ∧
      (∀ h, commands.lookup command = some h →
        process_message commands text data =
          some (h, " ".intercalate rest, data))) := by
  refine ⟨?_, ?_⟩
  · intro hempty
    simp [process_message, hempty]
  · intro command rest hsplit
    refine ⟨?_, ?_⟩
    · intro hnone
      simp [process_message, hsplit, hnone]
    · intro h hh
      cases rest with
      | nil => simp [process_message, hsplit, hh, String.intercalate]
      | cons a as => simp [process_message, hsplit, hh]

/-- Witness for C1 at a concrete text and table. -/
theorem C1_dispatch_witness :
    process_message [("/help", 1)] "  /help   me  now " 7 =
      some (1, "me now", 7) := by
  have h := C1_dispatch [("/help", 1)] "  /help   me  now " 7
  have h2 := (h.2 "/help" ["me", "now"] (by decide)).2 1 (by decide)
  exact h2.trans (by decide)

/-- C5: best_match(selection, options): if selection is itself an option
it is returned outright; otherwise if exactly one option has selection as
a prefix that option is returned; if multiple options have selection as a
prefix the list of those prefix matches is returned; if no option has
selection as a prefix, the list of options containing selection as a
substring is returned.  In particular, for options
rock/rockabilly/pop: input rock returns rock, input ro returns the
list [rock, rockabilly], and input billy returns the list
[rockabilly]. -/
theorem C5_best_match :
    (∀ selection options, selection ∈ options →
      best_match selection options = Sum.inl selection) ∧
    (∀ selection options x, selection ∉ options →
      options.filter (fun y => strStartsWith y selection) = [x] →
      best_match selection options = Sum.inl x) ∧
    (∀ selection options, selection ∉ options →
      2 ≤ (options.filter (fun y => strStartsWith y selection)).length →
      best_match selection options =
        Sum.inr (options.filter (fun y => strStartsWith y selection))) ∧
    (∀ selection options, selection ∉ options →
      options.filter (fun y => strStartsWith y selection) = [] →
      best_match selection options =
        Sum.inr (options.filter (fun y => strContains y selection))) ∧
    best_match "rock" ["rock", "rockabilly", "pop"] = Sum.inl "rock" ∧
    best_match "ro" ["rock", "rockabilly", "pop"] =
      Sum.inr ["rock", "rockabilly"] ∧
    best_match "billy" ["rock", "rockabilly", "pop"] =
      Sum.inr ["rockabilly"] := by
  refine ⟨?_, ?_, ?_, ?_, by decide, by decide, by decide⟩
  · intro selection options hmem
    simp [best_match, hmem]
  · intro selection options x hnot hfilter
    simp [best_match, hnot, hfilter]
  · intro selection options hnot hlen
    have hne : options.filter (fun y => strStartsWith y selection) ≠ [] := by
      intro hc
      rw [hc] at hlen
      simp at hlen
    have hne1 : (options.filter (fun y => strStartsWith y selection)).length ≠ 1 := by
      omega
    simp [best_match, hnot, hne, hne1]
  · intro selection options hnot hfilter
    simp [best_match, hnot, hfilter]

/-- Witness for C5 at concrete inputs with hypotheses discharged:
a unique prefix match is returned alone. -/
theorem C5_best_match_witness :
    best_match "po" ["rock", "rockabilly", "pop"] = Sum.inl "pop" :=
  C5_best_match.2.1 "po" ["rock", "rockabilly", "pop"] "pop"
    (by decide) (by decide)

/-- C6: For every session state, should_step_down holds exactly when the
bot's ID is in dj_ids and (number of listeners at most 1 or number of DJs
at least max_djs), and should_step_up holds exactly when the bot's ID is
not in dj_ids and more than one listener is present and the DJ count is
below min(2, max_djs - 1); consequently should_step_down and
should_step_up are never both true for any membership state where
max_djs is at least 2. -/
theorem C6_step_thresholds (botId : String)
    (dj_ids listener_ids : Finset String) (max_djs : Int) :
    (should_step_down botId dj_ids listener_ids max_djs ↔
      botId ∈ dj_ids ∧
        ((listener_ids.card : Int) ≤ 1 ∨ (dj_ids.card : Int) ≥ max_djs)) ∧
    (should_step_up botId dj_ids listener_ids max_djs ↔
      botId ∉ dj_ids ∧ (listener_ids.card : Int) > 1 ∧
        (dj_ids.card : Int) < min 2 (max_djs - 1)) ∧
    (2 ≤ max_djs →
      ¬ (should_step_down botId dj_ids listener_ids max_djs ∧
         should_step_up botId dj_ids listener_ids max_djs)) := by
  refine ⟨Iff.rfl, Iff.rfl, ?_⟩
  rintro _ ⟨⟨hdj, _⟩, hnot, _, _⟩
  exact hnot hdj

/-- Witness for C6 with the mutual-exclusivity hypothesis discharged at
max_djs = 2. -/
theorem C6_step_thresholds_witness :
    ¬ (should_step_down "bot" ∅ ∅ 2 ∧ should_step_up "bot" ∅ ∅ 2) :=
  (C6_step_thresholds "bot" ∅ ∅ 2).2.2 (by decide)

/-- C10: For every membership event whose user list contains the bot's
own user ID, dj_update returns without issuing any DJ-table action (no
addDj or remDj call) and without changing any plugin state, with one
exception: if that event's command is rem_dj, the should_auto_skip flag
is reset to False — so the autoskip setting does not survive the bot
being removed from the DJ table. -/
theorem C10_dj_update_self (botId command : String) (users : List String)
    (dj_ids listener_ids : Finset String) (max_djs : Int)
    (isPlaying : Bool) (st : DjState) (hmem : botId ∈ users) :
    (dj_update botId command users dj_ids listener_ids max_djs
        isPlaying st).2 = [] ∧
    (dj_update botId command users dj_ids listener_ids max_djs
        isPlaying st).1.end_song_step_down = st.end_song_step_down ∧
    (command = "rem_dj" →
      (dj_update botId command users dj_ids listener_ids max_djs
          isPlaying st).1.should_auto_skip = false) ∧
    (command ≠ "rem_dj" →
      (dj_update botId command users dj_ids listener_ids max_djs
          isPlaying st).1 = st) := by
  unfold dj_update
  rw [if_pos hmem]
  by_cases hc : command = "rem_dj" <;> simp [hc]

/-- Witness for C10: a rem_dj event listing the bot clears autoskip and
issues no DJ-table action. -/
theorem C10_dj_update_self_witness :
    (dj_update "bot" "rem_dj" ["bot"] ∅ ∅ 5 false
        ⟨true, true⟩).2 = [] ∧
    (dj_update "bot" "rem_dj" ["bot"] ∅ ∅ 5 false
        ⟨true, true⟩).1.should_auto_skip = false := by
  have h := C10_dj_update_self "bot" "rem_dj" ["bot"] ∅ ∅ 5 false
    ⟨true, true⟩ (by decide)
  exact ⟨h.1, h.2.2.1 rfl⟩

end Theorems

section Theorems2

open LazySusan Botdj

/-- C3: Each incremental membership event handler mutates exactly one
session set — add_dj/rem_dj only dj_ids, registered/deregistered only
listener_ids, new_moderator/rem_moderator only moderator_ids — leaving
the other sets and max_djs unchanged; the roomChanged handler is
authoritative and replaces dj_ids, listener_ids, moderator_ids and
max_djs wholesale from the snapshot, so after any roomChanged followed by
a sequence of incremental events the session's membership sets equal the
snapshot incrementally updated by those events. -/
theorem C3_membership_frame :
    (∀ users s,
      (applyEvent (Event.add_dj users) s).1.listener_ids = s.listener_ids ∧
      (applyEvent (Event.add_dj users) s).1.moderator_ids = s.moderator_ids ∧
      (applyEvent (Event.add_dj users) s).1.max_djs = s.max_djs) ∧
    (∀ users s,
      (applyEvent (Event.rem_dj users) s).1.listener_ids = s.listener_ids ∧
      (applyEvent (Event.rem_dj users) s).1.moderator_ids = s.moderator_ids ∧
      (applyEvent (Event.rem_dj users) s).1.max_djs = s.max_djs) ∧
    (∀ users s,
      (applyEvent (Event.registered users) s).1.dj_ids = s.dj_ids ∧
      (applyEvent (Event.registered users) s).1.moderator_ids = s.moderator_ids ∧
      (applyEvent (Event.registered users) s).1.max_djs = s.max_djs) ∧
    (∀ users s,
      (applyEvent (Event.deregistered users) s).1.dj_ids = s.dj_ids ∧
      (applyEvent (Event.deregistered users) s).1.moderator_ids = s.moderator_ids ∧
      (applyEvent (Event.deregistered users) s).1.max_djs = s.max_djs) ∧
    (∀ userid s,
      (applyEvent (Event.new_moderator userid) s).1.dj_ids = s.dj_ids ∧
      (applyEvent (Event.new_moderator userid) s).1.listener_ids = s.listener_ids ∧
      (applyEvent (Event.new_moderator userid) s).1.max_djs = s.max_djs) ∧
    (∀ userid s,
      (applyEvent (Event.rem_moderator userid) s).1.dj_ids = s.dj_ids ∧
      (applyEvent (Event.rem_moderator userid) s).1.listener_ids = s.listener_ids ∧
      (applyEvent (Event.rem_moderator userid) s).1.max_djs = s.max_djs) ∧
    (∀ djs userids maxDjs moderatorIds s,
      applyEvent (Event.roomChanged djs userids maxDjs moderatorIds) s =
        (snapshotSession djs userids maxDjs moderatorIds, true)) ∧
    (∀ events djs userids maxDjs moderatorIds s,
      applyEvents events
          (applyEvent (Event.roomChanged djs userids maxDjs moderatorIds) s).1 =
        applyEvents events (snapshotSession djs userids maxDjs moderatorIds)) := by
  refine ⟨?_, ?_, ?_, ?_, ?_, ?_, ?_, ?_⟩
  · intro users s
    simp [applyEvent]
  · intro users s
    rcases hr : removeAll users s.dj_ids with ⟨dj, ok⟩
    simp [applyEvent, hr]
  · intro users s
    simp [applyEvent]
  · intro users s
    rcases hr : removeAll users s.listener_ids with ⟨l, ok⟩
    simp [applyEvent, hr]
  · intro userid s
    simp [applyEvent]
  · intro userid s
    by_cases hm : userid ∈ s.moderator_ids <;> simp [applyEvent, hm]
  · intro djs userids maxDjs moderatorIds s
    rfl
  · intro events djs userids maxDjs moderatorIds s
    rfl

/-- A removal loop over a list that mentions a user outside the set
raises (the flag comes back false): erasing other members never makes a
missing member appear. -/
theorem removeAll_missing {users : List String} {s : Finset String}
    (h : ∃ u ∈ users, u ∉ s) : (removeAll users s).2 = false := by
  induction users generalizing s with
  | nil =>
    rcases h with ⟨u, hu, _⟩
    cases hu
  | cons a rest ih =>
    rcases h with ⟨u, hu, hus⟩
    by_cases ha : a ∈ s
    · rw [removeAll, if_pos ha]
      apply ih
      rcases List.mem_cons.mp hu with rfl | hmem
      · exact absurd ha hus
      · exact ⟨u, hmem, fun hc => hus (Finset.mem_of_mem_erase hc)⟩
    · rw [removeAll, if_neg ha]

/-- C4: For every removal event (rem_dj, deregistered/user-leave,
rem_moderator) whose target user ID is not present in the corresponding
session set, the handler raises an exception (a fault) rather than
silently leaving the set unchanged; removal is never a no-op on a
missing member. -/
theorem C4_removal_faults :
    (∀ users s, (∃ u ∈ users, u ∉ s.dj_ids) →
      (applyEvent (Event.rem_dj users) s).2 = false) ∧
    (∀ users s, (∃ u ∈ users, u ∉ s.listener_ids) →
      (applyEvent (Event.deregistered users) s).2 = false) ∧
    (∀ userid s, userid ∉ s.moderator_ids →
      applyEvent (Event.rem_moderator userid) s = (s, false)) := by
  refine ⟨?_, ?_, ?_⟩
  · intro users s h
    rcases hr : removeAll users s.dj_ids with ⟨dj, ok⟩
    have hm := removeAll_missing h
    rw [hr] at hm
    simp [applyEvent, hr, hm]
  · intro users s h
    rcases hr : removeAll users s.listener_ids with ⟨l, ok⟩
    have hm := removeAll_missing h
    rw [hr] at hm
    simp [applyEvent, hr, hm]
  · intro userid s h
    simp [applyEvent, h]

/-- Witness for C4: removing an unknown moderator faults. -/
theorem C4_removal_faults_witness :
    applyEvent (Event.rem_moderator "u") ⟨∅, ∅, ∅, none⟩ =
      (⟨∅, ∅, ∅, none⟩, false) :=
  C4_removal_faults.2.2 "u" ⟨∅, ∅, ∅, none⟩ (by decide)

/-- Walking the plugin command list stops at the first colliding command,
leaving the table untouched, returning failure and the two messages. -/
theorem load_command_plugin_aux_collision
    (commands : List (String × Owner)) (pluginName : String)
    (pcs : List (String × Owner)) (c : String) (other : Owner)
    (h : firstCollision commands pcs = some (c, other)) :
    ∀ to_add, load_command_plugin_aux commands pluginName pcs to_add =
      (commands, false,
        [collisionMsg pluginName other c, LoadMsg.notLoading pluginName]) := by
  induction pcs with
  | nil =>
    rw [firstCollision] at h
    cases h
  | cons q rest ih =>
    rcases q with ⟨c0, h0⟩
    intro to_add
    rw [firstCollision] at h
    cases hl : commands.lookup c0 with
    | some o =>
      rw [hl] at h
      simp only [Option.some.injEq, Prod.mk.injEq] at h
      obtain ⟨rfl, rfl⟩ := h
      rw [load_command_plugin_aux, hl]
    | none =>
      rw [hl] at h
      simp only [] at h
      rw [load_command_plugin_aux, hl]
      exact ih h (to_add ++ [(c0, h0)])

end Theorems2

section Theorems3

open LazySusan Botdj

/-- A plugin command list holds a key already bound in the table exactly
when a first collision exists. -/
theorem firstCollision_isSome (commands : List (String × Owner))
    (pcs : List (String × Owner)) :
    (∃ p ∈ pcs, (commands.lookup p.1).isSome) ↔
      (firstCollision commands pcs).isSome := by
  induction pcs with
  | nil =>
    simp [firstCollision]
  | cons q rest ih =>
    rcases q with ⟨c0, h0⟩
    cases hl : commands.lookup c0 with
    | some o =>
      rw [firstCollision, hl]
      constructor
      · intro _
        rfl
      · intro _
        exact ⟨(c0, h0), List.mem_cons_self _ _, by rw [hl]; rfl⟩
    | none =>
      rw [firstCollision, hl]
      constructor
      · rintro ⟨p, hp, hps⟩
        rcases List.mem_cons.mp hp with rfl | hmem
        · rw [hl] at hps
          cases hps
        · exact ih.mp ⟨p, hmem, hps⟩
      · intro hsome
        rcases ih.mpr hsome with ⟨p, hmem, hps⟩
        exact ⟨p, List.mem_cons_of_mem _ hmem, hps⟩

/-- C2: For every plugin whose declared command table contains a key
already bound in the bot's command table, registration of that plugin
fails: a failure message is printed that distinguishes a conflict with
another plugin's command from use of a reserved bot command, none of that
plugin's commands are added (the existing binding for the colliding key
remains unchanged, and the command table is left exactly as before), and
the plugin is not retained in the loaded-plugins mapping. -/
theorem C2_conflicting_plugin_rejected
    (commands : List (String × Owner)) (loaded_plugins : List String)
    (pluginName : String) (pluginCommands : List (String × Owner))
    (c : String) (other : Owner)
    (h : firstCollision commands pluginCommands = some (c, other)) :
    commands.lookup c = some other ∧
    load_command_plugin commands pluginName pluginCommands =
      (commands, false,
        [collisionMsg pluginName other c, LoadMsg.notLoading pluginName]) ∧
    load_plugin commands loaded_plugins pluginName pluginCommands =
      (commands, loaded_plugins,
        [collisionMsg pluginName other c, LoadMsg.notLoading pluginName]) ∧
    (∀ otherName, other = Owner.plugin otherName →
      collisionMsg pluginName other c =
        LoadMsg.conflict pluginName otherName c) ∧
    (other = Owner.bot →
      collisionMsg pluginName other c = LoadMsg.reserved pluginName c) ∧
    (∀ (cmds pcs : List (String × Owner)),
      (∃ p ∈ pcs, (cmds.lookup p.1).isSome) ↔
        (firstCollision cmds pcs).isSome) := by
  have hlookup : commands.lookup c = some other := by
    clear loaded_plugins
    induction pluginCommands with
    | nil =>
      rw [firstCollision] at h
      cases h
    | cons q rest ih =>
      rcases q with ⟨c0, h0⟩
      rw [firstCollision] at h
      cases hl : commands.lookup c0 with
      | some o =>
        rw [hl] at h
        simp only [Option.some.injEq, Prod.mk.injEq] at h
        obtain ⟨rfl, rfl⟩ := h
        exact hl
      | none =>
        rw [hl] at h
        simp only [] at h
        exact ih h
    
  have haux := load_command_plugin_aux_collision commands pluginName
    pluginCommands c other h []
  refine ⟨hlookup, haux, ?_, ?_, ?_, firstCollision_isSome⟩
  · unfold load_plugin load_command_plugin
    unfold load_command_plugin at haux
    rw [haux]
    rfl
  · intro otherName hother
    rw [hother]
    rfl
  · intro hother
    rw [hother]
    rfl

/-- Witness for C2: a plugin declaring the reserved command collides
with the bot binding and is rejected with the table and plugin map
unchanged. -/
theorem C2_conflicting_plugin_rejected_witness :
    load_plugin [("/help", Owner.bot)] ["first"] "second"
        [("/help", Owner.plugin "second")] =
      ([("/help", Owner.bot)], ["first"],
        [LoadMsg.reserved "second" "/help", LoadMsg.notLoading "second"]) := by
  have h := C2_conflicting_plugin_rejected [("/help", Owner.bot)] ["first"]
    "second" [("/help", Owner.plugin "second")] "/help" Owner.bot (by decide)
  exact h.2.2.1.trans (by decide)

end Theorems3

section Theorems4

open LazySusan Botdj

/-- C7: The playlist clear chain issues one remove-at-head request at a
time, each response driving the next: starting from a non-empty mirror of
n song IDs, each successful remove-head response removes exactly one song
ID from the mirror; the response that empties the mirror triggers the
"Cleared playlist" reply exactly once (in particular, 3 successive
successful responses clear a 3-element mirror with exactly one cleared
reply); a failure response reports the number of items still remaining
and halts the chain (no further request is issued); a progress message is
sent exactly when the cumulative removed count is a positive multiple
of 30. -/
theorem C7_clear_chain :
    (∀ name oc resp (pl : Finset String), resp.success = true →
      resp.fileid ∈ pl →
      (clear_step name oc resp pl).1 = pl.erase resp.fileid ∧
      (clear_step name oc resp pl).1.card + 1 = pl.card) ∧
    (∀ name oc resp (pl : Finset String), resp.success = false →
      clear_step name oc resp pl =
        (pl, [PlMsg.failure pl.card], false, false)) ∧
    (∀ name oc resp (pl : Finset String), resp.success = true →
      resp.fileid ∈ pl →
      (pl.erase resp.fileid = ∅ →
        (clear_step name oc resp pl).2.2.1 = false ∧
        (clear_step name oc resp pl).2.1.count (PlMsg.cleared name) = 1) ∧
      (pl.erase resp.fileid ≠ ∅ →
        (clear_step name oc resp pl).2.2.1 = true ∧
        PlMsg.cleared name ∉ (clear_step name oc resp pl).2.1)) ∧
    (∀ name oc resp (pl : Finset String), resp.success = true →
      resp.fileid ∈ pl → pl.card ≤ oc →
      1 ≤ oc - (pl.erase resp.fileid).card ∧
      (PlMsg.progress (oc - (pl.erase resp.fileid).card) oc ∈
          (clear_step name oc resp pl).2.1 ↔
        (oc - (pl.erase resp.fileid).card) % 30 = 0)) ∧
    clear_run "default" 3 [⟨true, "a"⟩, ⟨true, "b"⟩, ⟨true, "c"⟩]
        {"a", "b", "c"} = (∅, [PlMsg.cleared "default"]) := by
  have hmsgs : ∀ name oc resp (pl : Finset String), resp.success = true →
      resp.fileid ∈ pl →
      (clear_step name oc resp pl).2.1 =
        (if (oc - (pl.erase resp.fileid).card) % 30 = 0
          then [PlMsg.progress (oc - (pl.erase resp.fileid).card) oc]
          else []) ++
        (if pl.erase resp.fileid = ∅ then [PlMsg.cleared name] else []) := by
    intro name oc resp pl hs hmem
    by_cases h30 : (oc - (pl.erase resp.fileid).card) % 30 = 0 <;>
      by_cases he : pl.erase resp.fileid = ∅ <;>
      simp [clear_step, hs, hmem, h30, he]
  have hnext : ∀ name oc resp (pl : Finset String), resp.success = true →
      resp.fileid ∈ pl →
      (clear_step name oc resp pl).2.2.1 =
        (if pl.erase resp.fileid = ∅ then false else true) := by
    intro name oc resp pl hs hmem
    by_cases he : pl.erase resp.fileid = ∅ <;>
      simp [clear_step, hs, hmem, he]
  refine ⟨?_, ?_, ?_, ?_, by decide⟩
  · intro name oc resp pl hs hmem
    have hcard := Finset.card_erase_add_one hmem
    have hfst : (clear_step name oc resp pl).1 = pl.erase resp.fileid := by
      by_cases he : pl.erase resp.fileid = ∅ <;>
        simp [clear_step, hs, hmem, he]
    refine ⟨hfst, ?_⟩
    rw [hfst]
    exact hcard
  · intro name oc resp pl hs
    simp [clear_step, hs]
  · intro name oc resp pl hs hmem
    constructor
    · intro he
      refine ⟨by rw [hnext name oc resp pl hs hmem, if_pos he], ?_⟩
      rw [hmsgs name oc resp pl hs hmem, if_pos he]
      by_cases h30 : (oc - (pl.erase resp.fileid).card) % 30 = 0 <;>
        simp [h30]
    · intro he
      refine ⟨by rw [hnext name oc resp pl hs hmem, if_neg he], ?_⟩
      rw [hmsgs name oc resp pl hs hmem, if_neg he]
      by_cases h30 : (oc - (pl.erase resp.fileid).card) % 30 = 0 <;>
        simp [h30]
  · intro name oc resp pl hs hmem hle
    have hcard := Finset.card_erase_add_one hmem
    refine ⟨by omega, ?_⟩
    rw [hmsgs name oc resp pl hs hmem]
    by_cases h30 : (oc - (pl.erase resp.fileid).card) % 30 = 0 <;>
      by_cases he : pl.erase resp.fileid = ∅ <;>
      simp [h30, he]

/-- Witness for C7: a failure response reports the remaining count and
issues no further request. -/
theorem C7_clear_chain_witness :
    clear_step "default" 3 ⟨false, "x"⟩ {"a"} =
      ({"a"}, [PlMsg.failure 1], false, false) := by
  have h := C7_clear_chain.2.1 "default" 3 ⟨false, "x"⟩ {"a"} rfl
  exact h.trans (by decide)

/-- C8 counterexample: when the current playlist is not `default`, the
add request is issued but the current song is not added to the local
mirror, refuting the claim that /pladd always optimistically updates the
mirror on issuance. -/
theorem C8_counterexample :
    AddAction.playlistAdd "default" "s" 0 ∈
      (Playlist.add (some "s") ⟨"other", ∅⟩).2 ∧
    "s" ∉ (Playlist.add (some "s") ⟨"other", ∅⟩).1.mirror := by
  decide

/-- C8 (amended): /pladd replies and stops when nothing is playing; when
the current song is already in the current playlist mirror it replies and
issues no add request, leaving the mirror unchanged; otherwise it issues
exactly one add request, always targeting the `default` playlist at
index equal to the current mirror's size, optimistically adds the song ID
to the local mirror at issuance only when the current playlist is
`default` (the mirror is unchanged otherwise), and then issues a
"continue playback" nudge. -/
theorem C8_amended_add (currentSongId : Option String) (st : AddState) :
    (currentSongId = none →
      Playlist.add currentSongId st =
        (st, [AddAction.reply "There is no song playing."])) ∧
    (∀ songId, currentSongId = some songId → songId ∈ st.mirror →
      (Playlist.add currentSongId st).1 = st ∧
      ∀ p s i, AddAction.playlistAdd p s i ∉
        (Playlist.add currentSongId st).2) ∧
    (∀ songId, currentSongId = some songId → songId ∉ st.mirror →
      (Playlist.add currentSongId st).2 =
        [AddAction.reply "Cool tunes, daddio.",
         AddAction.playlistAdd "default" songId st.mirror.card,
         AddAction.bop] ∧
      (st.playlist = "default" →
        (Playlist.add currentSongId st).1.mirror = insert songId st.mirror) ∧
      (st.playlist ≠ "default" →
        (Playlist.add currentSongId st).1.mirror = st.mirror)) := by
  refine ⟨?_, ?_, ?_⟩
  · rintro rfl
    rfl
  · rintro songId rfl hmem
    refine ⟨by simp [Playlist.add, hmem], ?_⟩
    intro p s i
    simp [Playlist.add, hmem]
  · rintro songId rfl hmem
    refine ⟨by simp [Playlist.add, hmem], ?_, ?_⟩
    · intro hp
      simp [Playlist.add, hmem, hp]
    · intro hp
      simp [Playlist.add, hmem, hp]

/-- Witness for C8 (amended): on the default playlist the song is added
to the mirror and a single tail add request is issued. -/
theorem C8_amended_add_witness :
    (Playlist.add (some "s") ⟨"default", ∅⟩).2 =
      [AddAction.reply "Cool tunes, daddio.",
       AddAction.playlistAdd "default" "s" 0,
       AddAction.bop] ∧
    (Playlist.add (some "s") ⟨"default", ∅⟩).1.mirror =
      insert "s" ∅ := by
  have h := (C8_amended_add (some "s") ⟨"default", ∅⟩).2.2 "s" rfl (by decide)
  exact ⟨h.1, h.2.1 rfl⟩

/-- Tuple comparison is total. -/
theorem pairLe_total (a b : Int × String) :
    pairLe a b = true ∨ pairLe b a = true := by
  unfold pairLe
  rcases lt_trichotomy a.1 b.1 with h | h | h
  · left
    simp [h]
  · rcases le_total a.2 b.2 with h2 | h2
    · left
      simp [h, h2]
    · right
      simp [h.symm, h2]
  · right
    simp [h]

/-- Tuple comparison is transitive. -/
theorem pairLe_trans {a b c : Int × String} (h1 : pairLe a b = true)
    (h2 : pairLe b c = true) : pairLe a c = true := by
  unfold pairLe at h1 h2 ⊢
  simp only [Bool.or_eq_true, Bool.and_eq_true, decide_eq_true_eq] at h1 h2 ⊢
  rcases h1 with h1 | ⟨h1e, h1s⟩ <;> rcases h2 with h2 | ⟨h2e, h2s⟩
  · exact Or.inl (h1.trans h2)
  · exact Or.inl (h2e ▸ h1)
  · exact Or.inl (h1e.symm ▸ h2)
  · exact Or.inr ⟨h1e.trans h2e, h1s.trans h2s⟩

/-- Membership through sorted insertion. -/
theorem mem_insertPair {x y : Int × String} {l : List (Int × String)} :
    y ∈ insertPair x l ↔ y = x ∨ y ∈ l := by
  induction l with
  | nil => simp [insertPair]
  | cons z zs ih =>
    by_cases h : pairLe x z = true
    · rw [insertPair, if_pos h]
      simp [List.mem_cons]
    · rw [insertPair, if_neg h]
      simp only [List.mem_cons, ih]
      tauto

/-- Sorted insertion preserves sortedness. -/
theorem pairwise_insertPair {x : Int × String} {l : List (Int × String)}
    (h : l.Pairwise (fun a b => pairLe a b = true)) :
    (insertPair x l).Pairwise (fun a b => pairLe a b = true) := by
  induction l with
  | nil => simp [insertPair]
  | cons y ys ih =>
    rcases List.pairwise_cons.mp h with ⟨hy, hys⟩
    by_cases hxy : pairLe x y = true
    · rw [insertPair, if_pos hxy]
      refine List.Pairwise.cons ?_ h
      intro z hz
      rcases List.mem_cons.mp hz with rfl | hzys
      · exact hxy
      · exact pairLe_trans hxy (hy z hzys)
    · rw [insertPair, if_neg hxy]
      refine List.Pairwise.cons ?_ (ih hys)
      intro z hz
      rcases mem_insertPair.mp hz with hzx | hzys
      · subst hzx
        rcases pairLe_total z y with hc | hc
        · exact absurd hc hxy
        · exact hc
      · exact hy z hzys

/-- Insertion sort produces an ascending list. -/
theorem sortPairs_pairwise (l : List (Int × String)) :
    (sortPairs l).Pairwise (fun a b => pairLe a b = true) := by
  induction l with
  | nil => simp [sortPairs]
  | cons x xs ih =>
    rw [sortPairs]
    exact pairwise_insertPair ih

/-- Repeated insertion at the head reverses the insertion order. -/
theorem foldl_cons_reverse (l : List (Int × String)) :
    ∀ acc, l.foldl (fun acc p => p.2 :: acc) acc =
      (l.map Prod.snd).reverse ++ acc := by
  induction l with
  | nil =>
    intro acc
    simp
  | cons x xs ih =>
    intro acc
    simp [List.foldl_cons, ih]

/-- C9 counterexample: with scores [5, 1, 3] for song IDs [A, B, C], the
head-to-tail order produced by the update chain is not (B, C, A). -/
theorem C9_counterexample :
    ¬ update_final_order [(5, "A"), (1, "B"), (3, "C")] ∅ =
      ["B", "C", "A"] := by
  decide

/-- C9 (amended): Update-from-room-history sorts the candidate songs not
already in the mirror by ascending popularity score and inserts each at
the head (position 0) one request at a time, so the conceptual playlist
read head-to-tail lists the candidates in reverse insertion order —
highest score first; with scores [5, 1, 3] for song IDs [A, B, C] the
candidates are sent in order (B, C, A) and the resulting head-to-tail
order is (A, C, B), so highest-scored songs end up played soonest. -/
theorem C9_amended_history_order :
    (∀ songlog (mirror : Finset String),
      update_final_order songlog mirror =
        ((update_to_add songlog mirror).map Prod.snd).reverse) ∧
    (∀ songlog (mirror : Finset String),
      (update_to_add songlog mirror).Pairwise
        (fun a b => pairLe a b = true)) ∧
    update_to_add [(5, "A"), (1, "B"), (3, "C")] ∅ =
      [(1, "B"), (3, "C"), (5, "A")] ∧
    update_final_order [(5, "A"), (1, "B"), (3, "C")] ∅ =
      ["A", "C", "B"] := by
  refine ⟨?_, ?_, by decide, by decide⟩
  · intro songlog mirror
    unfold update_final_order
    rw [foldl_cons_reverse]
    simp
  · intro songlog mirror
    unfold update_to_add
    exact sortPairs_pairwise _

end Theorems4
